import Mathlib

/-!
# BK1785B control tool: frame codec and command dispatch

A shallow embedding of `bk1785b.c`.  Bytes (`uint8_t`) are natural numbers
below 256; conversions to `uint8_t` are written as an explicit `% 256`.
The packed structures are overlaid on byte buffers the way the C code does
it, on a little-endian host.  The serial line is a scripted transport: the
values that `poll`, `write` and `read` return are given in advance.
-/

namespace BK1785

/-! ## Constants -/

def BK1785_SET_REMOTE_CONTROL_MODE : Nat := 0x20
def BK1785_SET_OUTPUT_POWER : Nat := 0x21
def BK1785_SET_OUTPUT_VOLTAGE : Nat := 0x23
def BK1785_SET_OUTPUT_CURRENT : Nat := 0x24
def BK1785_READ : Nat := 0x26
def BK1785_READ_PRODUCT_INFO : Nat := 0x31

/-- The values of `enum bk1785_status`. -/
def BK1785_COMMAND_SUCCESSFUL : Nat := 0x80
def BK1785_CHECKSUM_INCORRECT : Nat := 0x90
def BK1785_PARAMETER_INCORRECT : Nat := 0xa0
def BK1785_UNRECOGNIZED_COMMAND : Nat := 0xb0
def BK1785_INVALID_COMMAND : Nat := 0xc0

/-! ## Data model -/

/-- The packed `struct bk1785_packet`: 1 + 1 + 1 + 22 + 1 = 26 bytes.
The field `def` of the C structure is called `def_` here. -/
structure bk1785_packet where
  def_ : Nat
  addr : Nat
  cmd : Nat
  data : List Nat
  checksum : Nat
  deriving DecidableEq, Repr

/-- The packet seen through `(uint8_t *) pack`: its 26 bytes in memory order. -/
def bk1785_packet.bytes (p : bk1785_packet) : List Nat :=
  p.def_ :: p.addr :: p.cmd :: (p.data ++ [p.checksum])

/-- The packet stored by `memcpy(pack, buf, sizeof(buf))` from a 26-byte buffer. -/
def bk1785_packet.ofBytes (buf : List Nat) : bk1785_packet :=
  { def_ := buf.getD 0 0
    addr := buf.getD 1 0
    cmd := buf.getD 2 0
    data := (buf.drop 3).take 22
    checksum := buf.getD 25 0 }

/-- The packet after `memset(&p, 0x00, sizeof(p))`. -/
def bk1785_packet.zero : bk1785_packet :=
  { def_ := 0, addr := 0, cmd := 0, data := List.replicate 22 0, checksum := 0 }

/-- The call `memcpy(dst, src, n)` on byte buffers that both hold at least `n` bytes. -/
def memcpy (dst src : List Nat) (n : Nat) : List Nat :=
  src.take n ++ dst.drop n

/-! ## bk1785_checksum -/

/-- The loop of `bk1785_checksum`: `for (i = 0; i < n; i++) { cksum += data[i]; cksum %= 256; }`
started from `cksum = 0`. -/
def cksum_loop (data : List Nat) (n : Nat) : Nat :=
  (List.range n).foldl (fun cksum i => (cksum + data.getD i 0) % 256) 0

/-- The function `bk1785_checksum`: the loop runs over `sizeof(*pack) - 1 = 25` bytes and the
result is stored, as a `uint8_t`, in `pack->checksum`. -/
def bk1785_checksum (pack : bk1785_packet) : bk1785_packet :=
  { pack with checksum := cksum_loop pack.bytes 25 % 256 }

/-! ## Transport -/

/-- What one call `read(fd, buf + done, sizeof(buf))` does: it fails and returns -1 (`err`), or
it stores the bytes it received at `buf + done` and returns how many they are (`bytes`). -/
inductive ReadResult where
  | err
  | bytes (bs : List Nat)
  deriving DecidableEq, Repr

/-- The serial line behind `bk->fd`, as a script of what the system calls return:
`pollOut` and `pollIn` are the values of the two `poll` calls, `writes k` is the value of the
`k`-th call `write(fd, buf + k, 1)` and `reads` lists the results of the successive `read`
calls (when the list is used up the next `read` blocks for ever). -/
structure Transport where
  pollOut : Int
  writes : Nat → Int
  pollIn : Int
  reads : List ReadResult

/-- The `struct bk1785_dev`; the descriptor `fd` stands for the line it is opened on. -/
structure bk1785_dev where
  fd : Transport
  addr : Int

/-- Ways in which a call does not return normally. -/
inductive Fault where
  /-- The call blocks for ever in `read`. -/
  | blocked
  /-- A `read` stored bytes beyond the end of `buf[26]`. -/
  | overflow
  /-- A `%s` conversion read beyond the end of the packet. -/
  | overread
  deriving DecidableEq, Repr

/-! ## bk1785_read -/

/-- How the `while` loop of `bk1785_read` is left. -/
inductive ReadExit where
  | failed (ret : Int)
  | full (buf : List Nat)
  deriving DecidableEq, Repr

/-- The loop `while (done < sizeof(buf)) { ret = read(fd, buf + done, sizeof(buf)); ... }` of
`bk1785_read`.  `buf` lists the bytes stored so far, which are at offsets `0 .. done - 1` of
the local `uint8_t buf[26]`; the rest of that array is uninitialised. -/
def bk1785_read_loop : List ReadResult → List Nat → Nat → Except Fault ReadExit
  | [], buf, done => if done < 26 then .error .blocked else .ok (.full buf)
  | r :: rest, buf, done =>
    if done < 26 then
      match r with
      | .err => .ok (.failed (-1))
      | .bytes bs =>
        if 26 < done + bs.length then .error .overflow
        else bk1785_read_loop rest (buf.take done ++ bs) (done + bs.length)
    else .ok (.full buf)

/-- The function `bk1785_read`: returns the `int` result and the packet behind `pack`. -/
def bk1785_read (bk : bk1785_dev) (pack : bk1785_packet) : Except Fault (Int × bk1785_packet) :=
  let ret := bk.fd.pollIn
  if ret ≤ 0 then .ok (ret, pack)
  else
    match bk1785_read_loop bk.fd.reads [] 0 with
    | .error f => .error f
    | .ok (.failed ret) => .ok (ret, pack)
    | .ok (.full buf) => .ok (0, bk1785_packet.ofBytes buf)

/-! ## bk1785_write -/

/-- The loop `while (done < sizeof(buf)) { ret = write(fd, buf + done, 1); ... done += 1; }` of
`bk1785_write`.  The first argument is `sizeof(buf) - done`, the number of iterations left;
`sent` lists the bytes handed to `write` so far.  Returns the `int` result and `sent`. -/
def bk1785_write_loop (w : Nat → Int) (buf : List Nat) : Nat → Nat → List Nat → Int × List Nat
  | 0, _, sent => (0, sent)
  | n + 1, done, sent =>
    let ret := w done
    if ret < 0 then (ret, sent ++ [buf.getD done 0])
    else bk1785_write_loop w buf n (done + 1) (sent ++ [buf.getD done 0])

/-- The function `bk1785_write`: returns the `int` result, the packet behind `pack` (its
checksum is filled in before anything else) and the bytes handed to `write`.  The local
`buf[26]` is overwritten whole by `memcpy(buf, pack, sizeof(buf))`, so what it held before
(here zeros) does not matter. -/
def bk1785_write (bk : bk1785_dev) (pack : bk1785_packet) : Int × bk1785_packet × List Nat :=
  let pack := bk1785_checksum pack
  let buf := memcpy (List.replicate 26 0) pack.bytes 26
  let ret := bk.fd.pollOut
  if ret ≤ 0 then (ret, pack, [])
  else
    let r := bk1785_write_loop bk.fd.writes buf 26 0 []
    (r.1, pack, r.2)

/-! ## bk1785_send_command -/

/-- A little-endian unsigned integer of `n` bytes read at offset `off` of a byte buffer: what
a `uint16_t` or `uint32_t` field of a packed structure overlaid on the buffer holds. -/
def load_le (buf : List Nat) (off : Nat) : Nat → Nat
  | 0 => 0
  | n + 1 => buf.getD off 0 + 256 * load_le buf (off + 1) n

/-- The packed `struct bk1785_read_state`. -/
structure bk1785_read_state where
  pres_current : Nat
  pres_voltage : Nat
  state : Nat
  low : Nat
  high : Nat
  max_voltage : Nat
  voltage : Nat
  reserved : List Nat
  deriving DecidableEq, Repr

/-- The cast `(struct bk1785_read_state *) p.data`: field offsets 0, 2, 6, 7, 8, 9, 13, 17. -/
def bk1785_read_state.overlay (data : List Nat) : bk1785_read_state :=
  { pres_current := load_le data 0 2
    pres_voltage := load_le data 2 4
    state := data.getD 6 0
    low := data.getD 7 0
    high := data.getD 8 0
    max_voltage := load_le data 9 4
    voltage := load_le data 13 4
    reserved := (data.drop 17).take 5 }

/-- The bytes a `%s` conversion prints from the memory `mem`, which runs to the end of the
enclosing object: those before the first zero byte, or nothing when there is no zero byte
and the conversion runs off the object. -/
def cstring : List Nat → Option (List Nat)
  | [] => none
  | b :: rest => if b = 0 then some [] else (cstring rest).map (fun s => b :: s)

/-- One call of `printf` on standard output: the format used and the arguments given to
it (for `%s`, the bytes printed). -/
inductive Printed where
  | present_output_current (v : Nat)
  | present_output_voltage (v : Nat)
  | power_supply_state (v : Nat)
  | low_byte (v : Nat)
  | high_byte (v : Nat)
  | max_output_voltage (v : Nat)
  | output_voltage (v : Nat)
  | product_info (model : List Nat) (version patchlevel : Nat) (serial : List Nat)
  | command_successful
  | checksum_incorrect
  | parameter_incorrect
  | unrecognized_command
  | invalid_command
  | unknown_status (status : Nat)
  deriving DecidableEq, Repr

/-- What a call of `bk1785_send_command` leaves behind: its return value, the caller-s buffer
`data`, the lines printed on standard output and the bytes handed to `write`. -/
structure Result where
  ret : Int
  data : List Nat
  out : List Printed
  sent : List Nat
  deriving DecidableEq, Repr

/-- The packet `p` that `bk1785_send_command` fills in and passes to `bk1785_write`: the
`memset`, the three assignments (`bk->addr` is an `int`, converted to `uint8_t`) and the
`memcpy(p.data, data, 22)`. -/
def bk1785_send_command_request (bk : bk1785_dev) (cmd : Nat) (data : List Nat) :
    bk1785_packet :=
  let p := bk1785_packet.zero
  let p := { p with def_ := 0xaa }
  let p := { p with addr := (bk.addr % 256).toNat }
  let p := { p with cmd := cmd }
  { p with data := memcpy p.data data 22 }

/-- The function `bk1785_send_command`; `cmd` is a `uint8_t` and `data` points to 22 bytes.
Messages on standard error are not recorded. -/
def bk1785_send_command (bk : bk1785_dev) (cmd : Nat) (data : List Nat) : Except Fault Result :=
  let p := bk1785_send_command_request bk cmd data
  let w := bk1785_write bk p
  if w.1 ≠ 0 then .ok { ret := -1, data := data, out := [], sent := w.2.2 }
  else
    let p := bk1785_packet.zero
    match bk1785_read bk p with
    | .error f => .error f
    | .ok (ret, p) =>
      if ret ≠ 0 then .ok { ret := -1, data := data, out := [], sent := w.2.2 }
      else if cmd = BK1785_READ then
        let state := bk1785_read_state.overlay p.data
        .ok { ret := ret, data := data, sent := w.2.2,
              out := [.present_output_current state.pres_current,
                      .present_output_voltage state.pres_voltage,
                      .power_supply_state state.state,
                      .low_byte state.low,
                      .high_byte state.high,
                      .max_output_voltage state.max_voltage,
                      .output_voltage state.voltage] }
      else if cmd = BK1785_READ_PRODUCT_INFO then
        match cstring (p.bytes.drop 3), cstring (p.bytes.drop 10) with
        | some model, some serial =>
          .ok { ret := ret, data := data, sent := w.2.2,
                out := [.product_info model (p.data.getD 6 0) (p.data.getD 5 0) serial] }
        | _, _ => .error .overread
      else
        let status := p.data.getD 0 0
        if status = BK1785_COMMAND_SUCCESSFUL then
          .ok { ret := 0, data := memcpy data p.data 22, out := [.command_successful],
                sent := w.2.2 }
        else if status = BK1785_CHECKSUM_INCORRECT then
          .ok { ret := -1, data := data, out := [.checksum_incorrect], sent := w.2.2 }
        else if status = BK1785_PARAMETER_INCORRECT then
          .ok { ret := -1, data := data, out := [.parameter_incorrect], sent := w.2.2 }
        else if status = BK1785_UNRECOGNIZED_COMMAND then
          .ok { ret := -1, data := data, out := [.unrecognized_command], sent := w.2.2 }
        else if status = BK1785_INVALID_COMMAND then
          .ok { ret := -1, data := data, out := [.invalid_command], sent := w.2.2 }
        else
          .ok { ret := -1, data := data, out := [.unknown_status status], sent := w.2.2 }

/-! ## The option loop of main -/

/-- One result of `getopt_long`; for the options with an argument, `arg` is `atoi(optarg)`. -/
inductive Opt where
  | t (tty : String)
  | r (arg : Int)
  | v (arg : Int)
  | c (arg : Int)
  | o (arg : Int)
  | s
  | m
  | other
  deriving DecidableEq, Repr

/-- The four bytes of an `int` in memory on a little-endian host. -/
def int_bytes (tmp : Int) : List Nat :=
  let u := (tmp % 2 ^ 32).toNat
  [u % 256, u / 256 % 256, u / 65536 % 256, u / 16777216 % 256]

/-- The `int` whose four bytes in memory are `b`, on a little-endian host. -/
def int_of_bytes (b : List Nat) : Int :=
  let u := load_le b 0 4
  if u < 2 ^ 31 then (u : Int) else (u : Int) - 2 ^ 32

/-- The locals of `main` that the option loop assigns. -/
structure MainState where
  cmd : Nat
  data : List Nat
  tty : Option String
  deriving DecidableEq, Repr

/-- The locals on entry to the loop: `cmd = 0`, `memset(data, 0x00, sizeof(data))`, `tty = NULL`. -/
def MainState.init : MainState :=
  { cmd := 0, data := List.replicate 22 0, tty := none }

/-- The body of the `switch (opt)` in `main`; `none` is the `default` case, which prints the
usage and returns -1. -/
def main_option (st : MainState) : Opt → Option MainState
  | .t tty => some { st with tty := some tty }
  | .r tmp => some { st with cmd := BK1785_SET_REMOTE_CONTROL_MODE,
                             data := memcpy st.data (int_bytes tmp) 4 }
  | .v tmp => some { st with cmd := BK1785_SET_OUTPUT_VOLTAGE,
                             data := memcpy st.data (int_bytes tmp) 4 }
  | .c tmp => some { st with cmd := BK1785_SET_OUTPUT_CURRENT,
                             data := memcpy st.data (int_bytes tmp) 4 }
  | .o tmp => some { st with cmd := BK1785_SET_OUTPUT_POWER,
                             data := memcpy st.data (int_bytes tmp) 4 }
  | .s => some { st with cmd := BK1785_READ }
  | .m => some { st with cmd := BK1785_READ_PRODUCT_INFO }
  | .other => none

/-- The option loop of `main`, run over the options `getopt_long` returns until it returns -1. -/
def main_options : List Opt → MainState → Option MainState
  | [], st => some st
  | opt :: rest, st =>
    match main_option st opt with
    | none => none
    | some st => main_options rest st

/-! ## Sample inputs -/

/-- A line on which every call succeeds and the reply arrives in one `read`. -/
def line (reply : List Nat) : Transport :=
  { pollOut := 1, writes := fun _ => 1, pollIn := 1, reads := [.bytes reply] }

/-- The payload of a request to set 5000 mV: `88 13 00 00` and 18 zero bytes. -/
def payload_5000 : List Nat :=
  [0x88, 0x13, 0, 0, 0, 0, 0, 0, 0, 0, 0, 0, 0, 0, 0, 0, 0, 0, 0, 0, 0, 0]

/-- A packet whose checksum field holds a stale value. -/
def packet_5000 : bk1785_packet :=
  { def_ := 0xaa, addr := 0, cmd := 0x23, data := payload_5000, checksum := 0x77 }

/-- A reply that acknowledges a command (status 0x80) but whose checksum field, 0x00, is
not the sum 0x23 of the 25 bytes before it. -/
def reply_bad_checksum : List Nat :=
  [0xaa, 0, 0x12, 0x80, 1, 2, 3, 4, 5, 6, 7, 8, 9, 10, 11, 12, 13, 14, 15, 16, 17, 18, 19, 20, 21,
    0x00]

/-- The same reply with its checksum field correct. -/
def reply_good_checksum : List Nat :=
  [0xaa, 0, 0x12, 0x80, 1, 2, 3, 4, 5, 6, 7, 8, 9, 10, 11, 12, 13, 14, 15, 16, 17, 18, 19, 20, 21,
    0x23]

/-- A device at address 0 on a line that delivers `reply`. -/
def dev (reply : List Nat) : bk1785_dev :=
  { fd := line reply, addr := 0 }

/-- The frame that asks for 5000 mV at address 0, as it goes out on the line. -/
def frame_5000 : List Nat :=
  [0xaa, 0, 0x23, 0x88, 0x13, 0, 0, 0, 0, 0, 0, 0, 0, 0, 0, 0, 0, 0, 0, 0, 0, 0, 0, 0, 0, 0x68]

/-- A reply to Read with status-like byte 0xB0 first: current 0x01B0, voltage 5000 mV
(0x00001388), state 0x81, low 0x22, high 0x33, maximum 18000 mV (0x00004650), set voltage
5000 mV, reserved bytes 1..5 and a correct checksum. -/
def reply_read : List Nat :=
  [0xaa, 0, 0x26, 0xb0, 0x01, 0x88, 0x13, 0, 0, 0x81, 0x22, 0x33, 0x50, 0x46, 0, 0,
    0x88, 0x13, 0, 0, 1, 2, 3, 4, 5, 0x32]

/-- A reply to ReadProductInfo: model `1785B`, patch level 1, version 2, serial
`0123456789`, five reserved zero bytes and a correct checksum. -/
def reply_product_info : List Nat :=
  [0xaa, 0, 0x31, 0x31, 0x37, 0x38, 0x35, 0x42, 1, 2,
    0x30, 0x31, 0x32, 0x33, 0x34, 0x35, 0x36, 0x37, 0x38, 0x39, 0, 0, 0, 0, 0, 0x02]

/-- A reply to ReadProductInfo without any zero byte: 22 payload bytes `A` (0x41) and a
correct checksum 0x71. -/
def reply_product_info_full : List Nat :=
  [0xaa, 0, 0x31] ++ List.replicate 22 0x41 ++ [0x71]

/-- A device on a line whose reply arrives in two parts: the first `read`, asked for 26
bytes, returns 10 bytes and the second, asked for 26 bytes again, returns 20 bytes. -/
def dev_two_reads : bk1785_dev :=
  { fd := { pollOut := 1, writes := fun _ => 1, pollIn := 1,
            reads := [.bytes (List.replicate 10 0x55), .bytes (List.replicate 20 0x66)] }
    addr := 0 }

/-- A device on a line whose sixth `write` takes no byte and returns 0, every other `write`
taking its byte, and which then delivers `reply`. -/
def dev_short_write (reply : List Nat) : bk1785_dev :=
  { fd := { pollOut := 1, writes := fun k => if k = 5 then 0 else 1, pollIn := 1,
            reads := [.bytes reply] }
    addr := 0 }

/-- A device on a line whose fourth `write` fails and which would deliver `reply`. -/
def dev_write_error (reply : List Nat) : bk1785_dev :=
  { fd := { pollOut := 1, writes := fun k => if k = 3 then -1 else 1, pollIn := 1,
            reads := [.bytes reply] }
    addr := 0 }

/-! ## Bit flips on a frame -/

/-- The byte `x` with its bit `b` flipped. -/
def flip_bit (x b : Nat) : Nat :=
  x ^^^ 2 ^ b

/-- The frame `f` with bit `b` of its byte `i` flipped. -/
def flip_frame_bit (f : List Nat) (i b : Nat) : List Nat :=
  f.set i (flip_bit (f.getD i 0) b)

/-! ## Checksum lemmas -/

theorem cksum_loop_succ (data : List Nat) (n : Nat) :
    cksum_loop data (n + 1) = (cksum_loop data n + data.getD n 0) % 256 := by
  simp [cksum_loop, List.range_succ, List.foldl_append]

theorem sum_take_succ_getD (data : List Nat) (n : Nat) :
    (data.take (n + 1)).sum = (data.take n).sum + data.getD n 0 := by
  induction data generalizing n with
  | nil => simp
  | cons a t ih =>
    cases n with
    | zero => simp
    | succ m =>
      have h := ih m
      simp only [List.take_succ_cons, List.sum_cons, List.getD_cons_succ] at h ⊢
      omega

theorem cksum_loop_eq_sum (data : List Nat) (n : Nat) :
    cksum_loop data n = (data.take n).sum % 256 := by
  induction n with
  | zero => simp [cksum_loop]
  | succ m ih =>
    rw [cksum_loop_succ, ih, sum_take_succ_getD]
    omega

theorem cksum_loop_lt (data : List Nat) (n : Nat) : cksum_loop data n < 256 := by
  rw [cksum_loop_eq_sum]
  exact Nat.mod_lt _ (by decide)

theorem bytes_length (p : bk1785_packet) (h : p.data.length = 22) : p.bytes.length = 26 := by
  simp [bk1785_packet.bytes, h]

theorem bytes_take_25 (p : bk1785_packet) (h : p.data.length = 22) :
    p.bytes.take 25 = p.def_ :: p.addr :: p.cmd :: p.data := by
  simp [bk1785_packet.bytes, List.take_append_eq_append_take, h, List.take_of_length_le]

theorem checksum_field (p : bk1785_packet) (h : p.data.length = 22) :
    (bk1785_checksum p).checksum = (p.def_ + p.addr + p.cmd + p.data.sum) % 256 := by
  simp only [bk1785_checksum, cksum_loop_eq_sum, bytes_take_25 p h, List.sum_cons]
  omega


theorem checksum_idem (p : bk1785_packet) (h : p.data.length = 22) :
    bk1785_checksum (bk1785_checksum p) = bk1785_checksum p := by
  have h1 : (bk1785_checksum p).checksum = cksum_loop p.bytes 25 := by
    simp only [bk1785_checksum]
    exact Nat.mod_eq_of_lt (cksum_loop_lt _ _)
  have h2 : cksum_loop (bk1785_checksum p).bytes 25 = cksum_loop p.bytes 25 := by
    rw [cksum_loop_eq_sum, cksum_loop_eq_sum, bytes_take_25 p h,
      bytes_take_25 (bk1785_checksum p) (by simpa [bk1785_checksum] using h)]
    rfl
  have h3 : cksum_loop p.bytes 25 % 256 = cksum_loop p.bytes 25 :=
    Nat.mod_eq_of_lt (cksum_loop_lt _ _)
  simp only [bk1785_checksum] at h1 h2 ⊢
  rw [h2, h3]

/-! ## Write lemmas -/

theorem cons_take_drop_succ (buf : List Nat) (done n : Nat) (h : done < buf.length) :
    buf.getD done 0 :: (buf.drop (done + 1)).take n = (buf.drop done).take (n + 1) := by
  rw [List.drop_eq_getElem_cons h, List.take_succ_cons, List.getD_eq_getElem _ _ h]

theorem write_loop_ok (w : Nat → Int) (buf : List Nat) (n : Nat) :
    ∀ (done : Nat) (sent : List Nat), done + n ≤ buf.length →
      (∀ k, done ≤ k → k < done + n → 0 ≤ w k) →
      bk1785_write_loop w buf n done sent = (0, sent ++ (buf.drop done).take n) := by
  induction n with
  | zero => intro done sent _ _; simp [bk1785_write_loop]
  | succ m ih =>
    intro done sent hlen hw
    have h0 : ¬ w done < 0 := by
      have := hw done (le_refl _) (by omega)
      omega
    simp only [bk1785_write_loop, h0, if_false]
    rw [ih (done + 1) _ (by omega) (fun k hk1 hk2 => hw k (by omega) (by omega))]
    rw [List.append_assoc, List.singleton_append, cons_take_drop_succ buf done m (by omega)]

theorem write_loop_prefix (w : Nat → Int) (buf : List Nat) (n : Nat) :
    ∀ (done : Nat) (sent : List Nat), done + n ≤ buf.length →
      ∃ k, k ≤ n ∧ (bk1785_write_loop w buf n done sent).2 = sent ++ (buf.drop done).take k := by
  induction n with
  | zero => intro done sent _; exact ⟨0, le_refl _, by simp [bk1785_write_loop]⟩
  | succ m ih =>
    intro done sent hlen
    by_cases h0 : w done < 0
    · refine ⟨1, by omega, ?_⟩
      simp only [bk1785_write_loop, h0, if_true]
      rw [← cons_take_drop_succ buf done 0 (by omega)]
      simp
    · obtain ⟨k, hk, hk2⟩ := ih (done + 1) (sent ++ [buf.getD done 0]) (by omega)
      refine ⟨k + 1, by omega, ?_⟩
      simp only [bk1785_write_loop, h0, if_false]
      rw [hk2, List.append_assoc, List.singleton_append,
        cons_take_drop_succ buf done k (by omega)]

theorem request_data (bk : bk1785_dev) (cmd : Nat) (data : List Nat) (h : data.length = 22) :
    (bk1785_send_command_request bk cmd data).data = data := by
  simp [bk1785_send_command_request, memcpy, bk1785_packet.zero, List.take_of_length_le, h]

theorem request_bytes (bk : bk1785_dev) (cmd : Nat) (data : List Nat) (h : data.length = 22) :
    (bk1785_checksum (bk1785_send_command_request bk cmd data)).bytes =
      [0xAA, (bk.addr % 256).toNat, cmd] ++ data ++
        [(0xAA + (bk.addr % 256).toNat + cmd + data.sum) % 256] := by
  have hd := request_data bk cmd data h
  have hc := checksum_field (bk1785_send_command_request bk cmd data) (by rw [hd]; exact h)
  rw [hd] at hc
  have hm : memcpy bk1785_packet.zero.data data 22 = data := by
    simpa [bk1785_send_command_request] using hd
  simp only [bk1785_packet.bytes, hc]
  simp [bk1785_checksum, bk1785_send_command_request, hm]

theorem write_buf (p : bk1785_packet) (h : p.data.length = 22) :
    memcpy (List.replicate 26 0) p.bytes 26 = p.bytes := by
  simp [memcpy, List.take_of_length_le, bytes_length p h]

theorem bytes_getD_25 (p : bk1785_packet) (h : p.data.length = 22) :
    p.bytes.getD 25 0 = p.checksum := by
  simp [bk1785_packet.bytes, List.getD_eq_getElem?_getD, List.getElem?_append_right, h]

theorem getD_of_take_eq (a b : List Nat) (n i : Nat) (h : a.take n = b.take n) (hi : i < n) :
    a.getD i 0 = b.getD i 0 := by
  have h1 : (a.take n)[i]? = (b.take n)[i]? := by rw [h]
  rw [List.getElem?_take_of_lt hi, List.getElem?_take_of_lt hi] at h1
  simp [List.getD_eq_getElem?_getD, h1]

theorem write_sent_ok (bk : bk1785_dev) (p : bk1785_packet) (h : p.data.length = 22)
    (hp : 0 < bk.fd.pollOut) (hw : ∀ k, k < 26 → 0 ≤ bk.fd.writes k) :
    bk1785_write bk p = (0, bk1785_checksum p, (bk1785_checksum p).bytes) := by
  have hlen : (bk1785_checksum p).data.length = 22 := by simpa [bk1785_checksum] using h
  have hb := bytes_length _ hlen
  have hnp : ¬ bk.fd.pollOut ≤ 0 := by omega
  simp only [bk1785_write, write_buf _ hlen, hnp, if_false]
  rw [write_loop_ok bk.fd.writes _ 26 0 [] (by omega) (fun k _ hk => hw k (by omega))]
  simp [List.take_of_length_le, hb]

theorem write_sent_prefix (bk : bk1785_dev) (p : bk1785_packet) (h : p.data.length = 22) :
    ∃ k, k ≤ 26 ∧ (bk1785_write bk p).2.2 = (bk1785_checksum p).bytes.take k := by
  have hlen : (bk1785_checksum p).data.length = 22 := by simpa [bk1785_checksum] using h
  have hb := bytes_length _ hlen
  by_cases hnp : bk.fd.pollOut ≤ 0
  · exact ⟨0, by omega, by simp [bk1785_write, hnp]⟩
  · obtain ⟨k, hk, hk2⟩ := write_loop_prefix bk.fd.writes (bk1785_checksum p).bytes 26 0 []
      (by omega)
    refine ⟨k, hk, ?_⟩
    simp only [bk1785_write, write_buf _ hlen, hnp, if_false]
    simpa using hk2

theorem send_command_sent (bk : bk1785_dev) (cmd : Nat) (data : List Nat) (r : Result)
    (h : bk1785_send_command bk cmd data = .ok r) :
    r.sent = (bk1785_write bk (bk1785_send_command_request bk cmd data)).2.2 := by
  unfold bk1785_send_command at h
  simp only at h
  split at h
  · cases h; rfl
  · split at h
    · cases h
    · split at h
      · cases h; rfl
      · split at h
        · cases h; rfl
        · split at h
          · split at h
            · cases h; rfl
            · cases h
          · repeat' split at h
            all_goals (cases h; rfl)

/-! ## The claims -/

/-- C1: for every 26-byte packet, `bk1785_checksum` sets byte 25 to the sum of bytes 0..24
modulo 256, whatever byte 25 held before, and leaves bytes 0..24 as they were; reducing
modulo 256 after every addition gives the same value as reducing the whole sum once. -/
theorem C1_checksum_is_byte_sum (pack : bk1785_packet) (h : pack.data.length = 22) :
    (bk1785_checksum pack).bytes.length = 26 ∧
    (bk1785_checksum pack).bytes.getD 25 0 = (pack.bytes.take 25).sum % 256 ∧
    (∀ v : Nat, (bk1785_checksum { pack with checksum := v }).bytes.getD 25 0 =
      (bk1785_checksum pack).bytes.getD 25 0) ∧
    (∀ i, i < 25 → (bk1785_checksum pack).bytes.getD i 0 = pack.bytes.getD i 0) ∧
    cksum_loop pack.bytes 25 = (pack.bytes.take 25).sum % 256 := by
  have hlen : (bk1785_checksum pack).data.length = 22 := by simpa [bk1785_checksum] using h
  refine ⟨bytes_length _ hlen, ?_, ?_, ?_, cksum_loop_eq_sum _ _⟩
  · rw [bytes_getD_25 _ hlen, checksum_field pack h, bytes_take_25 pack h]
    simp only [List.sum_cons]
    omega
  · intro v
    rw [bytes_getD_25 _ hlen, bytes_getD_25 _ (by simpa [bk1785_checksum] using h),
      checksum_field pack h, checksum_field _ (by simpa using h)]
  · intro i hi
    apply getD_of_take_eq _ _ 25 i _ hi
    rw [bytes_take_25 _ hlen, bytes_take_25 pack h]
    rfl

/-- Witness of C1 on a set-voltage packet with a stale checksum field. -/
theorem C1_checksum_is_byte_sum_witness :
    packet_5000.data.length = 22 ∧ (bk1785_checksum packet_5000).bytes.getD 25 0 = 0x68 :=
  ⟨by decide, (C1_checksum_is_byte_sum packet_5000 (by decide)).2.1.trans (by decide)⟩

/-- C2: for every address, command byte and 22-byte payload, the bytes `bk1785_send_command`
hands to the transport through `bk1785_write` are those of the 26-byte sequence 0xAA, the low
8 bits of `bk->addr`, the command, the 22 payload bytes and the sum of these 25 bytes modulo
256: a leading part of it on every line, and all of it, in order, on a line that takes the
write. -/
theorem C2_frame_on_the_wire (bk : bk1785_dev) (cmd : Nat) (data : List Nat)
    (h : data.length = 22) :
    ([0xAA, (bk.addr % 256).toNat, cmd] ++ data ++
      [(0xAA + (bk.addr % 256).toNat + cmd + data.sum) % 256]).length = 26 ∧
    (∃ k, k ≤ 26 ∧ (bk1785_write bk (bk1785_send_command_request bk cmd data)).2.2 =
      ([0xAA, (bk.addr % 256).toNat, cmd] ++ data ++
        [(0xAA + (bk.addr % 256).toNat + cmd + data.sum) % 256]).take k) ∧
    (0 < bk.fd.pollOut → (∀ k, k < 26 → 0 ≤ bk.fd.writes k) →
      (bk1785_write bk (bk1785_send_command_request bk cmd data)).2.2 =
        [0xAA, (bk.addr % 256).toNat, cmd] ++ data ++
          [(0xAA + (bk.addr % 256).toNat + cmd + data.sum) % 256]) ∧
    (∀ r, bk1785_send_command bk cmd data = .ok r →
      r.sent = (bk1785_write bk (bk1785_send_command_request bk cmd data)).2.2) := by
  have hd := request_data bk cmd data h
  have hlen : (bk1785_send_command_request bk cmd data).data.length = 22 := by rw [hd]; exact h
  refine ⟨by simp [h], ?_, ?_, fun r hr => send_command_sent bk cmd data r hr⟩
  · have := write_sent_prefix bk _ hlen
    rwa [request_bytes bk cmd data h] at this
  · intro hp hw
    rw [write_sent_ok bk _ hlen hp hw, request_bytes bk cmd data h]

/-- Witness of C2: the set-voltage request for 5000 mV on a line that takes every byte. -/
theorem C2_frame_on_the_wire_witness :
    payload_5000.length = 22 ∧
    (bk1785_write (dev []) (bk1785_send_command_request (dev []) 0x23 payload_5000)).2.2 =
      frame_5000 :=
  ⟨by decide,
    ((C2_frame_on_the_wire (dev []) 0x23 payload_5000 (by decide)).2.2.1 (by decide)
      (fun _ _ => by simp [dev, line])).trans (by decide)⟩

/-! ## Read lemmas -/

theorem read_loop_full_length (rs : List ReadResult) :
    ∀ (buf : List Nat) (done : Nat) (b : List Nat), buf.length = done → done ≤ 26 →
      bk1785_read_loop rs buf done = .ok (.full b) → b.length = 26 := by
  induction rs with
  | nil =>
    intro buf done b hl hd h
    simp only [bk1785_read_loop] at h
    split at h
    · cases h
    · cases h; omega
  | cons r rest ih =>
    intro buf done b hl hd h
    simp only [bk1785_read_loop] at h
    split at h
    · cases r with
      | err => cases h
      | bytes bs =>
        simp only at h
        split at h
        · cases h
        · exact ih _ _ b (by simp [hl]) (by omega) h
    · cases h; omega

theorem read_reply_length (bk : bk1785_dev) (ret : Int) (reply : bk1785_packet)
    (h : bk1785_read bk bk1785_packet.zero = .ok (ret, reply)) : reply.data.length = 22 := by
  unfold bk1785_read at h
  simp only at h
  split at h
  · cases h; simp [bk1785_packet.zero]
  · split at h
    · cases h
    · cases h; simp [bk1785_packet.zero]
    · rename_i buf hb
      cases h
      have := read_loop_full_length _ [] 0 buf rfl (by decide) hb
      simp [bk1785_packet.ofBytes, this]

theorem write_reads_irrelevant (bk : bk1785_dev) (reads : List ReadResult) (p : bk1785_packet) :
    bk1785_write { bk with fd := { bk.fd with reads := reads } } p = bk1785_write bk p := rfl

theorem request_reads_irrelevant (bk : bk1785_dev) (reads : List ReadResult) (cmd : Nat)
    (data : List Nat) :
    bk1785_send_command_request { bk with fd := { bk.fd with reads := reads } } cmd data =
      bk1785_send_command_request bk cmd data := rfl

/-! ## Claims about the reply -/

/-- C3, as stated, fails: a reply that acknowledges a set-output-power command and whose
byte 25 is not the sum of its bytes 0..24 modulo 256 makes `bk1785_send_command` return 0,
print the success line and copy the reply payload into the caller-s buffer. -/
theorem C3_counterexample :
    reply_bad_checksum.length = 26 ∧
    reply_bad_checksum.getD 25 0 ≠ (reply_bad_checksum.take 25).sum % 256 ∧
    bk1785_send_command (dev reply_bad_checksum) 0x21 payload_5000 =
      .ok { ret := 0,
            data := [0x80, 1, 2, 3, 4, 5, 6, 7, 8, 9, 10, 11, 12, 13, 14, 15, 16, 17, 18, 19,
              20, 21],
            out := [.command_successful],
            sent := [0xaa, 0, 0x21, 0x88, 0x13, 0, 0, 0, 0, 0, 0, 0, 0, 0, 0, 0, 0, 0, 0, 0, 0,
              0, 0, 0, 0, 0x66] } :=
  ⟨by decide, by decide, by rfl⟩

/-- C3, amended: `bk1785_send_command` never compares byte 25 of the reply with the sum of
bytes 0..24.  For every command other than ReadProductInfo, two replies with the same 22
payload bytes give the same return value, the same output and the same bytes in the
caller-s buffer, whatever their bytes 25 are: no error is reported on account of the
checksum. -/
theorem C3_reply_checksum_not_examined (bk : bk1785_dev) (reads : List ReadResult) (cmd : Nat)
    (data : List Nat) (r1 r2 : bk1785_packet)
    (h1 : bk1785_read bk bk1785_packet.zero = .ok (0, r1))
    (h2 : bk1785_read { bk with fd := { bk.fd with reads := reads } } bk1785_packet.zero =
      .ok (0, r2))
    (hd : r1.data = r2.data) (hc : cmd ≠ BK1785_READ_PRODUCT_INFO) :
    bk1785_send_command { bk with fd := { bk.fd with reads := reads } } cmd data =
      bk1785_send_command bk cmd data := by
  simp only [bk1785_send_command, write_reads_irrelevant, request_reads_irrelevant, h1, h2, hd,
    hc, if_false]

/-- Witness of C3 amended: the reply with the bad checksum and the same reply with the good
one are handled alike. -/
theorem C3_reply_checksum_not_examined_witness :
    reply_good_checksum.getD 25 0 = (reply_good_checksum.take 25).sum % 256 ∧
    reply_bad_checksum.getD 25 0 ≠ (reply_bad_checksum.take 25).sum % 256 ∧
    bk1785_send_command (dev reply_bad_checksum) 0x21 payload_5000 =
      bk1785_send_command (dev reply_good_checksum) 0x21 payload_5000 :=
  ⟨by decide, by decide,
    C3_reply_checksum_not_examined (dev reply_good_checksum) [.bytes reply_bad_checksum] 0x21
      payload_5000 (bk1785_packet.ofBytes reply_good_checksum)
      (bk1785_packet.ofBytes reply_bad_checksum) (by rfl) (by rfl) (by rfl) (by decide)⟩

theorem send_command_status (bk : bk1785_dev) (cmd : Nat) (data : List Nat)
    (reply : bk1785_packet)
    (hw : (bk1785_write bk (bk1785_send_command_request bk cmd data)).1 = 0)
    (hr : bk1785_read bk bk1785_packet.zero = .ok (0, reply))
    (h1 : cmd ≠ BK1785_READ) (h2 : cmd ≠ BK1785_READ_PRODUCT_INFO) :
    bk1785_send_command bk cmd data =
      .ok { ret := if reply.data.getD 0 0 = 0x80 then 0 else -1,
            data := if reply.data.getD 0 0 = 0x80 then memcpy data reply.data 22 else data,
            out := [if reply.data.getD 0 0 = 0x80 then .command_successful
                    else if reply.data.getD 0 0 = 0x90 then .checksum_incorrect
                    else if reply.data.getD 0 0 = 0xa0 then .parameter_incorrect
                    else if reply.data.getD 0 0 = 0xb0 then .unrecognized_command
                    else if reply.data.getD 0 0 = 0xc0 then .invalid_command
                    else .unknown_status (reply.data.getD 0 0)],
            sent := (bk1785_write bk (bk1785_send_command_request bk cmd data)).2.2 } := by
  simp only [bk1785_send_command, hw, hr, h1, h2, ne_eq, not_true_eq_false, if_false,
    BK1785_COMMAND_SUCCESSFUL, BK1785_CHECKSUM_INCORRECT, BK1785_PARAMETER_INCORRECT,
    BK1785_UNRECOGNIZED_COMMAND, BK1785_INVALID_COMMAND]
  split_ifs <;> rfl

/-- C4: for every command other than Read (0x26) and ReadProductInfo (0x31) and every
reply delivered by a write and a read that both returned 0, `bk1785_send_command` returns 0
if and only if payload byte 0 of the reply is 0x80; for every other value of that byte, 0xB0
among them, it returns -1, whatever the other 21 payload bytes are. -/
theorem C4_success_iff_status_0x80 (bk : bk1785_dev) (cmd : Nat) (data : List Nat)
    (reply : bk1785_packet)
    (hw : (bk1785_write bk (bk1785_send_command_request bk cmd data)).1 = 0)
    (hr : bk1785_read bk bk1785_packet.zero = .ok (0, reply))
    (h1 : cmd ≠ 0x26) (h2 : cmd ≠ 0x31) :
    ∃ r, bk1785_send_command bk cmd data = .ok r ∧
      (r.ret = 0 ↔ reply.data.getD 0 0 = 0x80) ∧
      (reply.data.getD 0 0 ≠ 0x80 → r.ret = -1) ∧
      (reply.data.getD 0 0 = 0xb0 → r.ret = -1) := by
  refine ⟨_, send_command_status bk cmd data reply hw hr h1 h2, ?_, ?_, ?_⟩
  all_goals generalize reply.data.getD 0 0 = s
  · by_cases hs : s = 0x80 <;> simp [hs]
  · intro hs; simp [hs]
  · intro hs; simp [hs]

/-- Witness of C4: a set-output-power command acknowledged with status 0x80. -/
theorem C4_success_iff_status_0x80_witness :
    ∃ r, bk1785_send_command (dev reply_good_checksum) 0x21 payload_5000 = .ok r ∧
      (r.ret = 0 ↔ (bk1785_packet.ofBytes reply_good_checksum).data.getD 0 0 = 0x80) ∧
      ((bk1785_packet.ofBytes reply_good_checksum).data.getD 0 0 ≠ 0x80 → r.ret = -1) ∧
      ((bk1785_packet.ofBytes reply_good_checksum).data.getD 0 0 = 0xb0 → r.ret = -1) :=
  C4_success_iff_status_0x80 (dev reply_good_checksum) 0x21 payload_5000
    (bk1785_packet.ofBytes reply_good_checksum) (by rfl) (by rfl) (by decide) (by decide)

set_option maxRecDepth 8000 in
theorem unknown_status_count :
    ((List.range 256).filter (fun s => decide (s ∉ [0x80, 0x90, 0xa0, 0xb0, 0xc0]))).length =
      251 := by
  decide

/-- C5: the classification of payload byte 0 of the reply in `bk1785_send_command` is total
and unambiguous.  For every command other than Read and ReadProductInfo and every reply, one
line is printed and it is determined by that byte: 0x80 is reported as successful, 0x90 as
checksum incorrect, 0xA0 as parameter incorrect, 0xB0 as unrecognized command, 0xC0 as
invalid command, and every other value, of which there are 251 among the bytes, as an
unknown status carrying the byte, a line that differs from those of the four known
rejections. -/
theorem C5_status_classification (bk : bk1785_dev) (cmd : Nat) (data : List Nat)
    (reply : bk1785_packet)
    (hw : (bk1785_write bk (bk1785_send_command_request bk cmd data)).1 = 0)
    (hr : bk1785_read bk bk1785_packet.zero = .ok (0, reply))
    (h1 : cmd ≠ 0x26) (h2 : cmd ≠ 0x31) :
    ∃ r, bk1785_send_command bk cmd data = .ok r ∧
      (reply.data.getD 0 0 = 0x80 → r.out = [.command_successful]) ∧
      (reply.data.getD 0 0 = 0x90 → r.out = [.checksum_incorrect]) ∧
      (reply.data.getD 0 0 = 0xa0 → r.out = [.parameter_incorrect]) ∧
      (reply.data.getD 0 0 = 0xb0 → r.out = [.unrecognized_command]) ∧
      (reply.data.getD 0 0 = 0xc0 → r.out = [.invalid_command]) ∧
      (reply.data.getD 0 0 ∉ [0x80, 0x90, 0xa0, 0xb0, 0xc0] →
        r.out = [.unknown_status (reply.data.getD 0 0)] ∧
        r.out ≠ [.command_successful] ∧ r.out ≠ [.checksum_incorrect] ∧
        r.out ≠ [.parameter_incorrect] ∧ r.out ≠ [.unrecognized_command] ∧
        r.out ≠ [.invalid_command]) ∧
      ((List.range 256).filter (fun s => decide (s ∉ [0x80, 0x90, 0xa0, 0xb0, 0xc0]))).length =
        251 := by
  refine ⟨_, send_command_status bk cmd data reply hw hr h1 h2, ?_, ?_, ?_, ?_, ?_, ?_,
    unknown_status_count⟩
  all_goals generalize reply.data.getD 0 0 = s
  · intro hs; simp [hs]
  · intro hs; simp [hs]
  · intro hs; simp [hs]
  · intro hs; simp [hs]
  · intro hs; simp [hs]
  · intro hs
    simp only [List.mem_cons, List.mem_singleton, List.not_mem_nil, or_false, not_or] at hs
    obtain ⟨a, b, c, d, e⟩ := hs
    simp [a, b, c, d, e]

/-- Witness of C5: a set-output-power command acknowledged with status 0x80. -/
theorem C5_status_classification_witness :
    ∃ r, bk1785_send_command (dev reply_good_checksum) 0x21 payload_5000 = .ok r ∧
      r.out = [.command_successful] := by
  obtain ⟨r, hr, h80, _⟩ := C5_status_classification (dev reply_good_checksum) 0x21
    payload_5000 (bk1785_packet.ofBytes reply_good_checksum) (by rfl) (by rfl) (by decide)
    (by decide)
  exact ⟨r, hr, h80 (by decide)⟩

/-- C6, as stated, fails: after a set-output-power command acknowledged with status 0x80
the caller-s buffer holds 22 bytes that start with the status byte 0x80, not the 21 bytes
that follow it. -/
theorem C6_counterexample :
    bk1785_send_command (dev reply_good_checksum) 0x21 payload_5000 =
      .ok { ret := 0,
            data := [0x80, 1, 2, 3, 4, 5, 6, 7, 8, 9, 10, 11, 12, 13, 14, 15, 16, 17, 18, 19,
              20, 21],
            out := [.command_successful],
            sent := [0xaa, 0, 0x21, 0x88, 0x13, 0, 0, 0, 0, 0, 0, 0, 0, 0, 0, 0, 0, 0, 0, 0, 0,
              0, 0, 0, 0, 0x66] } ∧
    (bk1785_packet.ofBytes reply_good_checksum).data.drop 1 =
      [1, 2, 3, 4, 5, 6, 7, 8, 9, 10, 11, 12, 13, 14, 15, 16, 17, 18, 19, 20, 21] ∧
    [0x80, 1, 2, 3, 4, 5, 6, 7, 8, 9, 10, 11, 12, 13, 14, 15, 16, 17, 18, 19, 20, 21] ≠
      (bk1785_packet.ofBytes reply_good_checksum).data.drop 1 :=
  ⟨by rfl, by decide, by decide⟩

/-- C6, amended: for every command other than Read and ReadProductInfo and every reply whose
payload byte 0 is 0x80, the bytes returned through the 22-byte data buffer are the whole
reply payload, `payload[0:22]`, verbatim: the status byte 0x80 at offset 0 and after it the
21 payload bytes that follow the status byte. -/
theorem C6_buffer_holds_whole_payload (bk : bk1785_dev) (cmd : Nat) (data : List Nat)
    (reply : bk1785_packet)
    (hw : (bk1785_write bk (bk1785_send_command_request bk cmd data)).1 = 0)
    (hr : bk1785_read bk bk1785_packet.zero = .ok (0, reply))
    (h1 : cmd ≠ 0x26) (h2 : cmd ≠ 0x31) (hs : reply.data.getD 0 0 = 0x80)
    (hl : data.length = 22) :
    ∃ r, bk1785_send_command bk cmd data = .ok r ∧ r.ret = 0 ∧
      r.data = reply.data ∧ r.data.length = 22 ∧ r.data.getD 0 0 = 0x80 ∧
      r.data.drop 1 = reply.data.drop 1 ∧ (r.data.drop 1).length = 21 := by
  have hrl := read_reply_length bk 0 reply hr
  have hm : memcpy data reply.data 22 = reply.data := by
    simp [memcpy, List.take_of_length_le, List.drop_of_length_le, hrl, hl]
  refine ⟨_, send_command_status bk cmd data reply hw hr h1 h2, ?_, ?_, ?_, ?_, ?_, ?_⟩
  · simp only [hs, if_true]
  · simp only [hs, if_true, hm]
  · simp only [hs, if_true, hm, hrl]
  · simp only [hs, if_true, hm]
  · simp only [hs, if_true, hm]
  · simp only [hs, if_true, hm, List.length_drop, hrl]

/-- Witness of C6 amended: a set-output-power command acknowledged with status 0x80. -/
theorem C6_buffer_holds_whole_payload_witness :
    ∃ r, bk1785_send_command (dev reply_good_checksum) 0x21 payload_5000 = .ok r ∧ r.ret = 0 ∧
      r.data = (bk1785_packet.ofBytes reply_good_checksum).data ∧ r.data.length = 22 ∧
      r.data.getD 0 0 = 0x80 ∧
      r.data.drop 1 = (bk1785_packet.ofBytes reply_good_checksum).data.drop 1 ∧
      (r.data.drop 1).length = 21 :=
  C6_buffer_holds_whole_payload (dev reply_good_checksum) 0x21 payload_5000
    (bk1785_packet.ofBytes reply_good_checksum) (by rfl) (by rfl) (by decide) (by decide)
    (by decide) (by decide)

/-- C7: when the command is Read (0x26), for every reply payload, whatever its byte 0,
`bk1785_send_command` returns 0 and the telemetry it prints is positional: the present
current is the little-endian 16-bit value of bytes 0..1, the present voltage the
little-endian 32-bit value of bytes 2..5, the state is byte 6, low is byte 7, high is byte 8,
the maximum voltage is the little-endian 32-bit value of bytes 9..12 and the voltage that of
bytes 13..16. -/
theorem C7_telemetry_is_positional (bk : bk1785_dev) (data : List Nat) (reply : bk1785_packet)
    (hw : (bk1785_write bk (bk1785_send_command_request bk 0x26 data)).1 = 0)
    (hr : bk1785_read bk bk1785_packet.zero = .ok (0, reply)) :
    bk1785_send_command bk 0x26 data =
      .ok { ret := 0,
            data := data,
            out := [.present_output_current (reply.data.getD 0 0 + 256 * reply.data.getD 1 0),
                    .present_output_voltage (reply.data.getD 2 0 + 256 * reply.data.getD 3 0 +
                      65536 * reply.data.getD 4 0 + 16777216 * reply.data.getD 5 0),
                    .power_supply_state (reply.data.getD 6 0),
                    .low_byte (reply.data.getD 7 0),
                    .high_byte (reply.data.getD 8 0),
                    .max_output_voltage (reply.data.getD 9 0 + 256 * reply.data.getD 10 0 +
                      65536 * reply.data.getD 11 0 + 16777216 * reply.data.getD 12 0),
                    .output_voltage (reply.data.getD 13 0 + 256 * reply.data.getD 14 0 +
                      65536 * reply.data.getD 15 0 + 16777216 * reply.data.getD 16 0)],
            sent := (bk1785_write bk (bk1785_send_command_request bk 0x26 data)).2.2 } ∧
    bk1785_read_state.overlay reply.data =
      { pres_current := reply.data.getD 0 0 + 256 * reply.data.getD 1 0,
        pres_voltage := reply.data.getD 2 0 + 256 * reply.data.getD 3 0 +
          65536 * reply.data.getD 4 0 + 16777216 * reply.data.getD 5 0,
        state := reply.data.getD 6 0,
        low := reply.data.getD 7 0,
        high := reply.data.getD 8 0,
        max_voltage := reply.data.getD 9 0 + 256 * reply.data.getD 10 0 +
          65536 * reply.data.getD 11 0 + 16777216 * reply.data.getD 12 0,
        voltage := reply.data.getD 13 0 + 256 * reply.data.getD 14 0 +
          65536 * reply.data.getD 15 0 + 16777216 * reply.data.getD 16 0,
        reserved := (reply.data.drop 17).take 5 } := by
  have ho : bk1785_read_state.overlay reply.data =
      { pres_current := reply.data.getD 0 0 + 256 * reply.data.getD 1 0,
        pres_voltage := reply.data.getD 2 0 + 256 * reply.data.getD 3 0 +
          65536 * reply.data.getD 4 0 + 16777216 * reply.data.getD 5 0,
        state := reply.data.getD 6 0,
        low := reply.data.getD 7 0,
        high := reply.data.getD 8 0,
        max_voltage := reply.data.getD 9 0 + 256 * reply.data.getD 10 0 +
          65536 * reply.data.getD 11 0 + 16777216 * reply.data.getD 12 0,
        voltage := reply.data.getD 13 0 + 256 * reply.data.getD 14 0 +
          65536 * reply.data.getD 15 0 + 16777216 * reply.data.getD 16 0,
        reserved := (reply.data.drop 17).take 5 } := by
    simp only [bk1785_read_state.overlay, load_le, bk1785_read_state.mk.injEq, and_true,
      true_and, Nat.reduceAdd]
    refine ⟨?_, ?_, ?_, ?_⟩ <;> omega
  refine ⟨?_, ho⟩
  have hw2 : (bk1785_write bk (bk1785_send_command_request bk 38 data)).1 = 0 := hw
  simp only [bk1785_send_command, hw2, hr, ne_eq, not_true_eq_false, if_false, BK1785_READ,
    if_true, ho]

/-- Witness of C7: a Read reply whose first payload byte is 0xB0. -/
theorem C7_telemetry_is_positional_witness :
    bk1785_send_command (dev reply_read) 0x26 (List.replicate 22 0) =
      .ok { ret := 0,
            data := List.replicate 22 0,
            out := [.present_output_current 0x01b0, .present_output_voltage 5000,
                    .power_supply_state 0x81, .low_byte 0x22, .high_byte 0x33,
                    .max_output_voltage 18000, .output_voltage 5000],
            sent := [0xaa, 0, 0x26] ++ List.replicate 22 0 ++ [0xd0] } :=
  (C7_telemetry_is_positional (dev reply_read) (List.replicate 22 0)
    (bk1785_packet.ofBytes reply_read) (by rfl) (by rfl)).1.trans (by rfl)

/-- C8 fails on the code: with a ReadProductInfo reply that carries model `1785B`, patch
level 1, version 2 and serial `0123456789`, the model text printed by `bk1785_send_command`
has 17 bytes, the 5 of the model followed by the patch level, the version and the serial;
and with a reply without any zero byte the `%s` conversions run off the end of the packet. -/
theorem C8_model_text_overruns :
    bk1785_send_command (dev reply_product_info) 0x31 (List.replicate 22 0) =
      .ok { ret := 0,
            data := List.replicate 22 0,
            out := [.product_info
                      [0x31, 0x37, 0x38, 0x35, 0x42, 1, 2,
                        0x30, 0x31, 0x32, 0x33, 0x34, 0x35, 0x36, 0x37, 0x38, 0x39]
                      2 1
                      [0x30, 0x31, 0x32, 0x33, 0x34, 0x35, 0x36, 0x37, 0x38, 0x39]],
            sent := [0xaa, 0, 0x31] ++ List.replicate 22 0 ++ [0xdb] } ∧
    (bk1785_packet.ofBytes reply_product_info).data.take 5 = [0x31, 0x37, 0x38, 0x35, 0x42] ∧
    reply_product_info.getD 25 0 = (reply_product_info.take 25).sum % 256 ∧
    reply_product_info_full.getD 25 0 = (reply_product_info_full.take 25).sum % 256 ∧
    bk1785_send_command (dev reply_product_info_full) 0x31 (List.replicate 22 0) =
      .error .overread :=
  ⟨by rfl, by decide, by decide, by decide, by rfl⟩

/-! ## The request payload built by main -/

theorem int_bytes_length (n : Int) : (int_bytes n).length = 4 := by
  simp [int_bytes]

theorem memcpy_int_bytes (data : List Nat) (n : Int) :
    memcpy data (int_bytes n) 4 = int_bytes n ++ data.drop 4 := by
  simp [memcpy, List.take_of_length_le, int_bytes_length]

theorem load_le_int_bytes (n : Int) : load_le (int_bytes n) 0 4 = (n % 2 ^ 32).toNat := by
  have hu : (n % 2 ^ 32).toNat < 2 ^ 32 := by omega
  simp only [int_bytes, load_le, List.getD_cons_zero, List.getD_cons_succ, Nat.reduceAdd]
  generalize (n % 2 ^ 32).toNat = u at hu
  omega

theorem int_of_bytes_int_bytes (n : Int) (hlo : -2 ^ 31 ≤ n) (hhi : n < 2 ^ 31) :
    int_of_bytes (int_bytes n) = n := by
  simp only [int_of_bytes, load_le_int_bytes]
  split_ifs <;> omega

theorem main_option_invariant (st st2 : MainState) (opt : Opt)
    (h : main_option st opt = some st2)
    (hi : st.data.length = 22 ∧ st.data.drop 4 = List.replicate 18 0) :
    st2.data.length = 22 ∧ st2.data.drop 4 = List.replicate 18 0 := by
  obtain ⟨hl, hz⟩ := hi
  cases opt <;> simp only [main_option, Option.some.injEq, reduceCtorEq] at h <;> subst h <;>
    simp [memcpy_int_bytes, int_bytes_length, hl, hz]

theorem main_options_invariant (opts : List Opt) :
    ∀ (st st2 : MainState), main_options opts st = some st2 →
      (st.data.length = 22 ∧ st.data.drop 4 = List.replicate 18 0) →
      st2.data.length = 22 ∧ st2.data.drop 4 = List.replicate 18 0 := by
  induction opts with
  | nil => intro st st2 h hi; simp only [main_options, Option.some.injEq] at h; subst h; exact hi
  | cons opt rest ih =>
    intro st st2 h hi
    simp only [main_options] at h
    split at h
    · cases h
    · rename_i st1 h1
      exact ih st1 st2 h (main_option_invariant st st1 opt h1 hi)

theorem main_options_append (pre post : List Opt) :
    ∀ (st0 st : MainState), main_options pre st0 = some st →
      main_options (pre ++ post) st0 = main_options post st := by
  induction pre with
  | nil =>
    intro st0 st h
    simp only [main_options, Option.some.injEq] at h
    subst h
    rfl
  | cons o rest ih =>
    intro st0 st h
    simp only [main_options, List.cons_append] at h ⊢
    split at h
    · cases h
    · rename_i st1 h1
      exact ih st1 st h

theorem main_options_tty (post : List Opt) :
    ∀ st : MainState, (∀ o ∈ post, ∃ tty, o = Opt.t tty) →
      ∃ st2, main_options post st = some st2 ∧ st2.cmd = st.cmd ∧ st2.data = st.data := by
  induction post with
  | nil => intro st _; exact ⟨st, rfl, rfl, rfl⟩
  | cons o rest ih =>
    intro st h
    obtain ⟨tty, rfl⟩ := h o (List.mem_cons_self _ _)
    obtain ⟨st2, h2, hc, hd⟩ := ih { st with tty := some tty }
      (fun o ho => h o (List.mem_cons_of_mem _ ho))
    exact ⟨st2, by simpa [main_options, main_option] using h2, hc, hd⟩

/-! ## Claims about the request -/

/-- C9: in `main`, after every sequence of options the payload has 22 bytes of which bytes
4..21 are zero; and when the operation is set-remote, set-voltage, set-current or set-output
with the 32-bit integer argument `n` (the option is the last one, terminal options aside),
the command is that of the operation and the payload is the 4 little-endian bytes of `n`
followed by 18 zero bytes; reading bytes 0..3 back as a little-endian 32-bit integer gives
`n`. -/
theorem C9_argument_payload (pre post : List Opt) (st : MainState) (n : Int)
    (hpre : main_options pre MainState.init = some st)
    (hpost : ∀ o ∈ post, ∃ tty, o = Opt.t tty)
    (hlo : -2 ^ 31 ≤ n) (hhi : n < 2 ^ 31) :
    (st.data.length = 22 ∧ st.data.drop 4 = List.replicate 18 0) ∧
    (∀ op code,
      (op, code) ∈ [(Opt.r n, 0x20), (Opt.v n, 0x23), (Opt.c n, 0x24), (Opt.o n, 0x21)] →
      ∃ st2, main_options (pre ++ op :: post) MainState.init = some st2 ∧ st2.cmd = code ∧
        st2.data = int_bytes n ++ List.replicate 18 0) ∧
    (∃ b0 b1 b2 b3 : Nat, int_bytes n = [b0, b1, b2, b3] ∧
      b0 < 256 ∧ b1 < 256 ∧ b2 < 256 ∧ b3 < 256 ∧
      ((b0 + 256 * b1 + 65536 * b2 + 16777216 * b3 : Nat) : Int) = n % 2 ^ 32) ∧
    int_of_bytes ((int_bytes n ++ List.replicate 18 0).take 4) = n := by
  have hinv := main_options_invariant pre MainState.init st hpre
    (by simp [MainState.init])
  refine ⟨hinv, ?_, ?_, ?_⟩
  · intro op code hmem
    have key : ∀ st1 : MainState, main_option st op = some st1 → st1.cmd = code →
        st1.data = int_bytes n ++ List.replicate 18 0 →
        ∃ st2, main_options (pre ++ op :: post) MainState.init = some st2 ∧ st2.cmd = code ∧
          st2.data = int_bytes n ++ List.replicate 18 0 := by
      intro st1 h1 hc hd
      obtain ⟨st2, h2, hc2, hd2⟩ := main_options_tty post st1 hpost
      refine ⟨st2, ?_, hc2.trans hc, hd2.trans hd⟩
      rw [main_options_append pre _ _ st hpre]
      simp only [main_options, h1]
      exact h2
    simp only [List.mem_cons, Prod.mk.injEq, List.mem_singleton, List.not_mem_nil,
      or_false] at hmem
    rcases hmem with ⟨rfl, rfl⟩ | ⟨rfl, rfl⟩ | ⟨rfl, rfl⟩ | ⟨rfl, rfl⟩
    · exact key _ rfl rfl (by simp [memcpy_int_bytes, hinv.2])
    · exact key _ rfl rfl (by simp [memcpy_int_bytes, hinv.2])
    · exact key _ rfl rfl (by simp [memcpy_int_bytes, hinv.2])
    · exact key _ rfl rfl (by simp [memcpy_int_bytes, hinv.2])
  · refine ⟨_, _, _, _, rfl, ?_, ?_, ?_, ?_, ?_⟩
    · omega
    · omega
    · omega
    · omega
    · have hu : (n % 2 ^ 32).toNat < 2 ^ 32 := by omega
      have hn : ((n % 2 ^ 32).toNat : Int) = n % 2 ^ 32 := by omega
      rw [← hn]
      generalize (n % 2 ^ 32).toNat = u at hu
      omega
  · have ht : (int_bytes n ++ List.replicate 18 0).take 4 = int_bytes n := by
      simp [List.take_append_eq_append_take, List.take_of_length_le, int_bytes_length]
    rw [ht]
    exact int_of_bytes_int_bytes n hlo hhi

/-- Witness of C9: the options read-state and set-voltage 12, then set-current -2. -/
theorem C9_argument_payload_witness :
    main_options [.s, .v 12] MainState.init =
      some { cmd := 0x23, tty := none,
             data := [12, 0, 0, 0, 0, 0, 0, 0, 0, 0, 0, 0, 0, 0, 0, 0, 0, 0, 0, 0, 0, 0] } ∧
    (∃ st2, main_options ([.s, .v 12] ++ Opt.c (-2) :: []) MainState.init = some st2 ∧
      st2.cmd = 0x24 ∧ st2.data = int_bytes (-2) ++ List.replicate 18 0) ∧
    int_bytes (-2) = [0xfe, 0xff, 0xff, 0xff] ∧
    int_of_bytes ((int_bytes (-2) ++ List.replicate 18 0).take 4) = -2 :=
  ⟨by decide,
    (C9_argument_payload [.s, .v 12] []
      { cmd := 0x23, tty := none,
        data := [12, 0, 0, 0, 0, 0, 0, 0, 0, 0, 0, 0, 0, 0, 0, 0, 0, 0, 0, 0, 0, 0] }
      (-2) (by decide) (fun o ho => absurd ho (List.not_mem_nil o)) (by decide)
      (by decide)).2.1 (Opt.c (-2)) 0x24 (by simp),
    by decide, by decide⟩

/-- C10: for every address, command and 22-byte payload, the frame of the encode path
(`bk1785_send_command` fills the packet, `bk1785_checksum` completes it in `bk1785_write`)
verifies: the sum of its bytes 0..24 modulo 256, recomputed, is its byte 25; and applying
`bk1785_checksum` a second time leaves all 26 bytes as they are. -/
theorem C10_checksum_round_trip (bk : bk1785_dev) (cmd : Nat) (data : List Nat)
    (h : data.length = 22) :
    (bk1785_write bk (bk1785_send_command_request bk cmd data)).2.1 =
      bk1785_checksum (bk1785_send_command_request bk cmd data) ∧
    (bk1785_checksum (bk1785_send_command_request bk cmd data)).bytes.length = 26 ∧
    ((bk1785_checksum (bk1785_send_command_request bk cmd data)).bytes.take 25).sum % 256 =
      (bk1785_checksum (bk1785_send_command_request bk cmd data)).bytes.getD 25 0 ∧
    cksum_loop (bk1785_checksum (bk1785_send_command_request bk cmd data)).bytes 25 =
      (bk1785_checksum (bk1785_send_command_request bk cmd data)).bytes.getD 25 0 ∧
    (bk1785_checksum (bk1785_checksum (bk1785_send_command_request bk cmd data))).bytes =
      (bk1785_checksum (bk1785_send_command_request bk cmd data)).bytes := by
  have hd : (bk1785_send_command_request bk cmd data).data.length = 22 := by
    rw [request_data bk cmd data h]; exact h
  generalize bk1785_send_command_request bk cmd data = p at hd
  have hlen : (bk1785_checksum p).data.length = 22 := by simpa [bk1785_checksum] using hd
  have hsum : ((bk1785_checksum p).bytes.take 25).sum % 256 =
      (bk1785_checksum p).bytes.getD 25 0 := by
    rw [bytes_getD_25 _ hlen, checksum_field p hd, bytes_take_25 _ hlen]
    simp only [List.sum_cons, bk1785_checksum]
    omega
  refine ⟨?_, bytes_length _ hlen, hsum, ?_, ?_⟩
  · simp only [bk1785_write]
    split <;> rfl
  · rw [cksum_loop_eq_sum]; exact hsum
  · rw [checksum_idem p hd]

/-- Witness of C10: the set-voltage request for 5000 mV. -/
theorem C10_checksum_round_trip_witness :
    payload_5000.length = 22 ∧
    (bk1785_checksum (bk1785_checksum (bk1785_send_command_request (dev []) 0x23
      payload_5000))).bytes = frame_5000 :=
  ⟨by decide,
    (C10_checksum_round_trip (dev []) 0x23 payload_5000 (by decide)).2.2.2.2.trans
      (by decide)⟩

/-! ## Bit flip lemmas -/

set_option maxRecDepth 100000 in
theorem flip_bit_step :
    ∀ b, b < 8 → ∀ x, x < 256 →
      (flip_bit x b = x + 2 ^ b ∨ flip_bit x b + 2 ^ b = x) ∧ flip_bit x b < 256 := by
  decide

theorem flip_bit_delta (x b : Nat) (hx : x < 256) (hb : b < 8) :
    ∃ d, 0 < d ∧ d < 256 ∧ (flip_bit x b = x + d ∨ flip_bit x b + d = x) := by
  refine ⟨2 ^ b, Nat.pow_pos (by decide), ?_, (flip_bit_step b hb x hx).1⟩
  calc 2 ^ b < 2 ^ 8 := Nat.pow_lt_pow_right (by decide) hb
    _ = 256 := by decide

theorem sum_take_set (l : List Nat) :
    ∀ (i n v : Nat), i < n → i < l.length →
      ((l.set i v).take n).sum + l.getD i 0 = (l.take n).sum + v := by
  induction l with
  | nil => intro i n v _ h; simp at h
  | cons a t ih =>
    intro i n v hin hil
    cases n with
    | zero => omega
    | succ m =>
      cases i with
      | zero => simp; omega
      | succ j =>
        have := ih j m v (by omega) (by simpa using hil)
        simp only [List.set_cons_succ, List.take_succ_cons, List.sum_cons, List.getD_cons_succ]
        omega

theorem take_set_of_le (l : List Nat) (i n v : Nat) (h : n ≤ i) :
    (l.set i v).take n = l.take n := by
  rw [List.set_take, List.set_eq_of_length_le]
  simp only [List.length_take]
  omega

theorem getD_set_ne (l : List Nat) (i j v : Nat) (h : i ≠ j) :
    (l.set i v).getD j 0 = l.getD j 0 := by
  simp [List.getD_eq_getElem?_getD, List.getElem?_set_ne h]

theorem getD_set_self (l : List Nat) (i v : Nat) (h : i < l.length) :
    (l.set i v).getD i 0 = v := by
  simp [List.getD_eq_getElem?_getD, h]

theorem checksum_verifies (p : bk1785_packet) (h : p.data.length = 22) :
    (bk1785_checksum p).bytes.getD 25 0 = ((bk1785_checksum p).bytes.take 25).sum % 256 := by
  have hlen : (bk1785_checksum p).data.length = 22 := by simpa [bk1785_checksum] using h
  rw [bytes_getD_25 _ hlen, checksum_field p h, bytes_take_25 _ hlen]
  simp only [List.sum_cons, bk1785_checksum]
  omega

theorem frame_bytes_lt (p : bk1785_packet) (h : p.data.length = 22)
    (h0 : p.def_ < 256) (h1 : p.addr < 256) (h2 : p.cmd < 256) (hd : ∀ x ∈ p.data, x < 256)
    (i : Nat) (hi : i < 26) : (bk1785_checksum p).bytes.getD i 0 < 256 := by
  have hlen : (bk1785_checksum p).data.length = 22 := by simpa [bk1785_checksum] using h
  have hb := bytes_length _ hlen
  have hall : ∀ x ∈ (bk1785_checksum p).bytes, x < 256 := by
    intro x hx
    simp only [bk1785_packet.bytes, bk1785_checksum, List.mem_cons, List.mem_append,
      List.mem_singleton, List.not_mem_nil, or_false] at hx
    rcases hx with rfl | rfl | rfl | hx | rfl
    · exact h0
    · exact h1
    · exact h2
    · exact hd x hx
    · exact Nat.mod_lt _ (by decide)
  rw [List.getD_eq_getElem _ _ (by omega)]
  exact hall _ (List.getElem_mem _)

/-! ## Claims about the checksum of a frame -/

/-- C11: checksum sensitivity.  For every encoded frame, whose byte 25 was computed by
`bk1785_checksum`, every byte index `i` in 0..24 and every bit position `b` in 0..7,
flipping bit `b` of byte `i` gives a frame whose recomputed checksum differs from its byte
25; and flipping any single bit of byte 25 alone gives a frame whose byte 25 differs from
the recomputed checksum. -/
theorem C11_checksum_sensitivity (p : bk1785_packet) (h : p.data.length = 22)
    (h0 : p.def_ < 256) (h1 : p.addr < 256) (h2 : p.cmd < 256) (hd : ∀ x ∈ p.data, x < 256) :
    (∀ i b, i < 25 → b < 8 →
      cksum_loop (flip_frame_bit (bk1785_checksum p).bytes i b) 25 ≠
        (flip_frame_bit (bk1785_checksum p).bytes i b).getD 25 0) ∧
    (∀ b, b < 8 →
      cksum_loop (flip_frame_bit (bk1785_checksum p).bytes 25 b) 25 ≠
        (flip_frame_bit (bk1785_checksum p).bytes 25 b).getD 25 0) := by
  have hlen : (bk1785_checksum p).data.length = 22 := by simpa [bk1785_checksum] using h
  have hb := bytes_length _ hlen
  have hv := checksum_verifies p h
  have hlt := frame_bytes_lt p h h0 h1 h2 hd
  generalize (bk1785_checksum p).bytes = f at hb hv hlt
  constructor
  · intro i b hi hbit
    obtain ⟨d, hd0, hd1, hdelta⟩ := flip_bit_delta (f.getD i 0) b (hlt i (by omega)) hbit
    have hs := sum_take_set f i 25 (flip_bit (f.getD i 0) b) hi (by omega)
    simp only [flip_frame_bit]
    rw [cksum_loop_eq_sum, getD_set_ne f i 25 _ (by omega), hv]
    omega
  · intro b hbit
    obtain ⟨d, hd0, hd1, hdelta⟩ := flip_bit_delta (f.getD 25 0) b (hlt 25 (by omega)) hbit
    simp only [flip_frame_bit]
    rw [cksum_loop_eq_sum, take_set_of_le f 25 25 _ (le_refl _),
      getD_set_self f 25 _ (by omega), ← hv]
    omega

/-- Witness of C11: in the frame that asks for 5000 mV, flipping bit 3 of byte 4 or bit 7 of
byte 25 breaks the checksum. -/
theorem C11_checksum_sensitivity_witness :
    cksum_loop (flip_frame_bit (bk1785_checksum packet_5000).bytes 4 3) 25 ≠
      (flip_frame_bit (bk1785_checksum packet_5000).bytes 4 3).getD 25 0 ∧
    cksum_loop (flip_frame_bit (bk1785_checksum packet_5000).bytes 25 7) 25 ≠
      (flip_frame_bit (bk1785_checksum packet_5000).bytes 25 7).getD 25 0 :=
  ⟨(C11_checksum_sensitivity packet_5000 (by decide) (by decide) (by decide) (by decide)
      (by decide)).1 4 3 (by decide) (by decide),
    (C11_checksum_sensitivity packet_5000 (by decide) (by decide) (by decide) (by decide)
      (by decide)).2 7 (by decide)⟩

/-- C12, as stated, fails: for address 0, command 0x23 and the payload 88 13 00 ... 00, the
checksum byte computed by the encode path is (0xAA + 0x00 + 0x23 + 0x88 + 0x13) mod 256, but
that value is not 0x02. -/
theorem C12_counterexample :
    (bk1785_checksum (bk1785_send_command_request (dev []) 0x23 payload_5000)).bytes.getD 25 0 =
      (0xAA + 0x00 + 0x23 + 0x88 + 0x13) % 256 ∧
    (bk1785_checksum (bk1785_send_command_request (dev []) 0x23 payload_5000)).bytes.getD 25 0 ≠
      0x02 :=
  ⟨by decide, by decide⟩

/-- C12, amended: for address 0, command 0x23 (set output voltage) and the payload
88 13 00 ... 00 (5000 mV), which is what `main` builds for the option set-voltage 5000, the
checksum byte 25 computed by the encode path and handed to the line is
(0xAA + 0x00 + 0x23 + 0x88 + 0x13) mod 256, and that value is 0x68. -/
theorem C12_checksum_of_set_voltage_5000 :
    main_options [.v 5000] MainState.init =
      some { cmd := 0x23, data := payload_5000, tty := none } ∧
    (dev []).addr = 0 ∧
    (bk1785_checksum (bk1785_send_command_request (dev []) 0x23 payload_5000)).bytes.getD 25 0 =
      (0xAA + 0x00 + 0x23 + 0x88 + 0x13) % 256 ∧
    (bk1785_checksum (bk1785_send_command_request (dev []) 0x23 payload_5000)).bytes.getD 25 0 =
      0x68 ∧
    (bk1785_write (dev []) (bk1785_send_command_request (dev []) 0x23 payload_5000)).2.2.getD
      25 0 = 0x68 :=
  ⟨by decide, by decide, by decide, by decide, by decide⟩

/-! ## Claims about the transport -/

/-- C13 fails on the code: every `read` is asked for 26 bytes at `buf + done`.  When the
first returns 10 bytes and the second 20, both within what was asked, the second stores
bytes at offsets 10..29 of the 26-byte buffer and the count reaches 30: `bk1785_read` runs
over its buffer. -/
theorem C13_read_overruns_buffer :
    dev_two_reads.fd.reads = [.bytes (List.replicate 10 0x55), .bytes (List.replicate 20 0x66)] ∧
    (List.replicate 10 0x55).length ≤ 26 ∧ (List.replicate 20 0x66).length ≤ 26 ∧
    26 < (List.replicate 10 0x55).length + (List.replicate 20 0x66).length ∧
    bk1785_read_loop dev_two_reads.fd.reads [] 0 = .error .overflow ∧
    bk1785_read dev_two_reads bk1785_packet.zero = .error .overflow :=
  ⟨by rfl, by decide, by decide, by decide, by rfl, by rfl⟩

/-- C14 fails on the code: when the sixth `write` takes no byte and returns 0, the loop of
`bk1785_write` still counts the byte as done, `bk1785_write` returns 0, and
`bk1785_send_command` goes on to read the reply and returns 0. -/
theorem C14_short_write_not_detected :
    (dev_short_write reply_good_checksum).fd.writes 5 = 0 ∧
    (bk1785_write (dev_short_write reply_good_checksum)
      (bk1785_send_command_request (dev_short_write reply_good_checksum) 0x21
        payload_5000)).1 = 0 ∧
    bk1785_send_command (dev_short_write reply_good_checksum) 0x21 payload_5000 =
      .ok { ret := 0,
            data := [0x80, 1, 2, 3, 4, 5, 6, 7, 8, 9, 10, 11, 12, 13, 14, 15, 16, 17, 18, 19,
              20, 21],
            out := [.command_successful],
            sent := [0xaa, 0, 0x21, 0x88, 0x13, 0, 0, 0, 0, 0, 0, 0, 0, 0, 0, 0, 0, 0, 0, 0, 0,
              0, 0, 0, 0, 0x66] } :=
  ⟨by decide, by decide, by rfl⟩

theorem send_command_write_failed (bk : bk1785_dev) (cmd : Nat) (data : List Nat)
    (hw : (bk1785_write bk (bk1785_send_command_request bk cmd data)).1 ≠ 0) :
    bk1785_send_command bk cmd data =
      .ok { ret := -1, data := data, out := [],
            sent := (bk1785_write bk (bk1785_send_command_request bk cmd data)).2.2 } := by
  simp only [bk1785_send_command, hw, ne_eq, not_false_eq_true, if_true]

theorem send_command_read_failed (bk : bk1785_dev) (cmd : Nat) (data : List Nat) (ret : Int)
    (p : bk1785_packet)
    (hw : (bk1785_write bk (bk1785_send_command_request bk cmd data)).1 = 0)
    (hr : bk1785_read bk bk1785_packet.zero = .ok (ret, p)) (hret : ret ≠ 0) :
    bk1785_send_command bk cmd data =
      .ok { ret := -1, data := data, out := [],
            sent := (bk1785_write bk (bk1785_send_command_request bk cmd data)).2.2 } := by
  simp only [bk1785_send_command, hw, hr, hret, ne_eq, not_true_eq_false, not_false_eq_true,
    if_true, if_false]

theorem send_command_read_ok (bk : bk1785_dev) (data : List Nat) (reply : bk1785_packet)
    (hw : (bk1785_write bk (bk1785_send_command_request bk BK1785_READ data)).1 = 0)
    (hr : bk1785_read bk bk1785_packet.zero = .ok (0, reply)) :
    ∃ r, bk1785_send_command bk BK1785_READ data = .ok r ∧ r.ret = 0 ∧ r.data = data := by
  simp only [bk1785_send_command, hw, hr, ne_eq, not_true_eq_false, if_false, if_true]
  exact ⟨_, rfl, rfl, rfl⟩

theorem send_command_data_changed (bk : bk1785_dev) (cmd : Nat) (data : List Nat) (r : Result)
    (h : bk1785_send_command bk cmd data = .ok r) (hne : r.data ≠ data) :
    cmd ≠ 0x26 ∧ cmd ≠ 0x31 ∧
    (bk1785_write bk (bk1785_send_command_request bk cmd data)).1 = 0 ∧
    ∃ reply, bk1785_read bk bk1785_packet.zero = .ok (0, reply) ∧
      reply.data.getD 0 0 = 0x80 ∧ r.ret = 0 ∧ r.data = memcpy data reply.data 22 := by
  by_cases hw : (bk1785_write bk (bk1785_send_command_request bk cmd data)).1 = 0
  · cases hr : bk1785_read bk bk1785_packet.zero with
    | error f => simp [bk1785_send_command, hw, hr] at h
    | ok v =>
      obtain ⟨ret, reply⟩ := v
      by_cases hret : ret = 0
      · subst hret
        by_cases h1 : cmd = BK1785_READ
        · subst h1
          obtain ⟨r2, hr2, _, hd2⟩ := send_command_read_ok bk data reply hw hr
          rw [hr2] at h
          simp only [Except.ok.injEq] at h
          subst h
          exact absurd hd2 hne
        · by_cases h2 : cmd = BK1785_READ_PRODUCT_INFO
          · subst h2
            cases hm : cstring (reply.bytes.drop 3) with
            | none =>
              simp only [bk1785_send_command, hw, hr, hm, ne_eq, not_true_eq_false, if_false,
                if_true, h1] at h
              cases h
            | some model =>
              cases hs : cstring (reply.bytes.drop 10) with
              | none =>
                simp only [bk1785_send_command, hw, hr, hm, hs, ne_eq, not_true_eq_false,
                  if_false, if_true, h1] at h
                cases h
              | some serial =>
                simp only [bk1785_send_command, hw, hr, hm, hs, ne_eq, not_true_eq_false,
                  if_false, if_true, h1, Except.ok.injEq] at h
                subst h
                exact absurd rfl hne
          · rw [send_command_status bk cmd data reply hw hr h1 h2] at h
            simp only [Except.ok.injEq] at h
            subst h
            by_cases hs : reply.data.getD 0 0 = 0x80
            · exact ⟨h1, h2, hw, reply, rfl, hs, by simp only [hs, if_true],
                by simp only [hs, if_true]⟩
            · simp only [hs, if_false] at hne
              exact absurd rfl hne
      · rw [send_command_read_failed bk cmd data ret reply hw hr hret] at h
        simp only [Except.ok.injEq] at h
        subst h
        exact absurd rfl hne
  · rw [send_command_write_failed bk cmd data hw] at h
    simp only [Except.ok.injEq] at h
    subst h
    exact absurd rfl hne

/-- C15: `bk1785_send_command` changes the caller-s 22-byte buffer only in the branch where
the command is neither Read nor ReadProductInfo and the status byte of the reply is 0x80.
Whenever the buffer differs after the call, that branch was taken; after a failed write,
after a failed read, after any other status and after a Read exchange the call returns with
the buffer holding the bytes it held before, and so does every ReadProductInfo exchange
that returns. -/
theorem C15_buffer_changes_only_on_success (bk : bk1785_dev) (cmd : Nat) (data : List Nat) :
    (∀ r, bk1785_send_command bk cmd data = .ok r → r.data ≠ data →
      cmd ≠ 0x26 ∧ cmd ≠ 0x31 ∧
      (bk1785_write bk (bk1785_send_command_request bk cmd data)).1 = 0 ∧
      ∃ reply, bk1785_read bk bk1785_packet.zero = .ok (0, reply) ∧
        reply.data.getD 0 0 = 0x80 ∧ r.ret = 0 ∧ r.data = memcpy data reply.data 22) ∧
    ((bk1785_write bk (bk1785_send_command_request bk cmd data)).1 ≠ 0 →
      ∃ r, bk1785_send_command bk cmd data = .ok r ∧ r.ret = -1 ∧ r.data = data) ∧
    (∀ ret p, (bk1785_write bk (bk1785_send_command_request bk cmd data)).1 = 0 →
      bk1785_read bk bk1785_packet.zero = .ok (ret, p) → ret ≠ 0 →
      ∃ r, bk1785_send_command bk cmd data = .ok r ∧ r.ret = -1 ∧ r.data = data) ∧
    (∀ reply, (bk1785_write bk (bk1785_send_command_request bk cmd data)).1 = 0 →
      bk1785_read bk bk1785_packet.zero = .ok (0, reply) → cmd ≠ 0x26 → cmd ≠ 0x31 →
      reply.data.getD 0 0 ≠ 0x80 →
      ∃ r, bk1785_send_command bk cmd data = .ok r ∧ r.ret = -1 ∧ r.data = data) ∧
    (∀ reply, (bk1785_write bk (bk1785_send_command_request bk cmd data)).1 = 0 →
      bk1785_read bk bk1785_packet.zero = .ok (0, reply) → cmd = 0x26 →
      ∃ r, bk1785_send_command bk cmd data = .ok r ∧ r.ret = 0 ∧ r.data = data) ∧
    (∀ r, bk1785_send_command bk cmd data = .ok r → cmd = 0x31 → r.data = data) := by
  refine ⟨fun r h hne => send_command_data_changed bk cmd data r h hne, ?_, ?_, ?_, ?_, ?_⟩
  · intro hw
    exact ⟨_, send_command_write_failed bk cmd data hw, rfl, rfl⟩
  · intro ret p hw hr hret
    exact ⟨_, send_command_read_failed bk cmd data ret p hw hr hret, rfl, rfl⟩
  · intro reply hw hr h1 h2 hs
    refine ⟨_, send_command_status bk cmd data reply hw hr h1 h2, ?_, ?_⟩
    · simp only [hs, if_false]
    · simp only [hs, if_false]
  · intro reply hw hr h1
    subst h1
    exact send_command_read_ok bk data reply hw hr
  · intro r h h31
    by_contra hne
    exact (send_command_data_changed bk cmd data r h hne).2.1 h31

/-- Witness of C15: a set-output-power command whose fourth `write` fails, and one answered
with status 0xB0, both leave the buffer as it was. -/
theorem C15_buffer_changes_only_on_success_witness :
    (∃ r, bk1785_send_command (dev_write_error reply_good_checksum) 0x21 payload_5000 = .ok r ∧
      r.ret = -1 ∧ r.data = payload_5000) ∧
    (∃ r, bk1785_send_command (dev reply_read) 0x21 payload_5000 = .ok r ∧
      r.ret = -1 ∧ r.data = payload_5000) :=
  ⟨(C15_buffer_changes_only_on_success (dev_write_error reply_good_checksum) 0x21
      payload_5000).2.1 (by decide),
    (C15_buffer_changes_only_on_success (dev reply_read) 0x21 payload_5000).2.2.2.1
      (bk1785_packet.ofBytes reply_read) (by rfl) (by rfl) (by decide) (by decide)
      (by decide)⟩

end BK1785
